import Mathlib

/-
Verification of the covmed coverage-estimation module (src/covmed/main.go).

The Go code is shallowly embedded: the sampling loop of BamInsertSizes
becomes a step function plus an explicit loop over a finite record list,
the statistics of lines 103-111 become computable functions over lists of
integers (float64 arithmetic is modelled over the rationals; the final
square root of the population variance is order-preserving and not needed
by any claim, so variances are carried instead of standard deviations),
readCoverage becomes a function over the raw character content of the
region file, and the per-reference accounting of Main becomes a fold over
the header reference list.  Go panics (index out of range, Atoi failure)
are modelled as Option.none results.
-/

namespace Covmed

/-- Cigar operation kinds of the alignment data model (sam.CigarMatch etc.). -/
inductive CigarOpKind
  | cMatch
  | cInsertion
  | cDeletion
  | cSkip
  | cSoftClip
  | cHardClip
  | cPadding
  | cEqual
  | cMismatch
  deriving DecidableEq

/-- One cigar block: an operation kind and a length. -/
structure CigarOp where
  kind : CigarOpKind
  len : Nat
  deriving DecidableEq

/-- Whether a cigar operation kind consumes the read (query) sequence,
as in the Consumes table used by Cigar.Lengths. -/
def consumesQuery : CigarOpKind → Bool
  | CigarOpKind.cMatch => true
  | CigarOpKind.cInsertion => true
  | CigarOpKind.cSoftClip => true
  | CigarOpKind.cEqual => true
  | CigarOpKind.cMismatch => true
  | _ => false

/-- Query-consumed length of a cigar: the read component of
rec.Cigar.Lengths() at line 92 of main.go. -/
def queryLen (cig : List CigarOp) : Nat :=
  (cig.filter (fun op => consumesQuery op.kind)).foldl (fun a op => a + op.len) 0

/-- Flag bit sam.Paired. -/
def flagPaired : Nat := 0x1

/-- Flag bit sam.ProperPair. -/
def flagProperPair : Nat := 0x2

/-- Flag bit sam.Unmapped. -/
def flagUnmapped : Nat := 0x4

/-- Flag bit sam.Secondary. -/
def flagSecondary : Nat := 0x100

/-- Flag bit sam.QCFail. -/
def flagQCFail : Nat := 0x200

/-- Flag bit sam.Supplementary. -/
def flagSupplementary : Nat := 0x800

/-- The filter mask of line 88: sam.Secondary|sam.Supplementary|sam.Unmapped|sam.QCFail. -/
def filterMask : Nat := flagSecondary ||| flagSupplementary ||| flagUnmapped ||| flagQCFail

/-- An alignment record as used by BamInsertSizes: flag bitset, leftmost
position, mate position, alignment end (rec.End()), template length, cigar. -/
structure SamRecord where
  flags : Nat
  pos : Int
  matePos : Int
  endPos : Int
  tempLen : Int
  cigar : List CigarOp
  deriving DecidableEq

/-- The drop test of lines 88-90: flags intersect the filter mask. -/
def isFiltered (r : SamRecord) : Bool :=
  (r.flags &&& filterMask) != 0

/-- Whether the cigar is exactly one block of kind match
(len(rec.Cigar) == 1 && rec.Cigar[0].Type() == sam.CigarMatch). -/
def isSingleMatch : List CigarOp → Bool
  | [op] => op.kind == CigarOpKind.cMatch
  | _ => false

/-- The pairing condition of line 96: rec.Pos < rec.MatePos, proper-pair
flag set, and a single-match cigar. -/
def insertQualifies (r : SamRecord) : Bool :=
  decide (r.pos < r.matePos) &&
    ((r.flags &&& flagProperPair) == flagProperPair) && isSingleMatch r.cigar

/-- The three sample buffers of BamInsertSizes: read lengths (sizes),
insert sizes, template lengths. -/
structure SampleState where
  sizes : List Int
  insertSizes : List Int
  templateLengths : List Int
  deriving DecidableEq

/-- The empty buffers at lines 79-81. -/
def initState : SampleState := SampleState.mk [] [] []

/-- One iteration of the loop body, lines 88-99: drop filtered records;
otherwise append the query-consumed length to sizes while it holds fewer
than n entries, and append (matePos - endPos) and the template length for
qualifying pairs. -/
def sampleStep (n : Nat) (st : SampleState) (r : SamRecord) : SampleState :=
  if isFiltered r then st
  else
    let st1 := if st.sizes.length < n then
        { st with sizes := st.sizes ++ [(queryLen r.cigar : Int)] }
      else st
    if insertQualifies r then
      { st1 with insertSizes := st1.insertSizes ++ [r.matePos - r.endPos],
                 templateLengths := st1.templateLengths ++ [r.tempLen] }
    else st1

/-- The loop of lines 82-101: before each read the guard
len(insertSizes) < n is checked; an exhausted source ends the loop. -/
def sampleLoop (n : Nat) : SampleState → List SamRecord → SampleState
  | st, [] => st
  | st, r :: rs =>
    if st.insertSizes.length < n then sampleLoop n (sampleStep n st r) rs else st

/-- BamInsertSizes restricted to its sampling pass: the buffers produced
from a finite record stream. -/
def bamInsertSizes (n : Nat) (recs : List SamRecord) : SampleState :=
  sampleLoop n initState recs

/-- The read-length buffer sorted ascending (sort.Ints at line 103). -/
def sortedSizes (xs : List Int) : List Int :=
  List.insertionSort (fun a b => a ≤ b) xs

/-- The indexing sizes[(len(sizes)-1)/2] of line 106; none models the
index-out-of-range panic on an empty buffer. -/
def medianIndexValue (xs : List Int) : Option Int :=
  (sortedSizes xs)[(xs.length - 1) / 2]?

/-- ReadLengthMedian of line 106: the middle element of the sorted buffer
minus one; none models the panic on an empty buffer. -/
def readLengthMedianOf (xs : List Int) : Option Int :=
  (medianIndexValue xs).map (fun v => v - 1)

/-- The meanStd function of lines 52-61, over the rationals; the second
component is the population variance (the code reports its square root). -/
def meanStd (arr : List Int) : ℚ × ℚ :=
  let l : ℚ := (arr.length : ℚ)
  let mean : ℚ := (arr.map (fun a => (a : ℚ) / l)).sum
  (mean, (arr.map (fun a => ((a : ℚ) - mean) ^ 2 / l)).sum)

/-- The Sizes result of lines 64-71, with population variances in place of
standard deviations (the square root is not needed by any claim). -/
structure Sizes where
  insertMean : ℚ
  insertVar : ℚ
  templateMean : ℚ
  templateVar : ℚ
  readLengthMean : ℚ
  readLengthMedian : ℚ
  deriving DecidableEq

/-- Lines 103-111 of BamInsertSizes: the median indexing of line 106 runs
first and its out-of-range panic on an empty read-length buffer is
modelled as none; otherwise all statistics are computed. -/
def computeSizes (st : SampleState) : Option Sizes :=
  match medianIndexValue st.sizes with
  | none => none
  | some m =>
    some (Sizes.mk (meanStd st.insertSizes).1 (meanStd st.insertSizes).2
      (meanStd st.templateLengths).1 (meanStd st.templateLengths).2
      (meanStd st.sizes).1 ((m : ℚ) - 1))

/-- The coverage formula of line 154: mapped * ReadLengthMedian / genomeBases. -/
def coverage (mapped readMedian totalBases : ℚ) : ℚ :=
  mapped * readMedian / totalBases

/-- Splits a character list around the first occurrence of sep, when present. -/
def splitFirst (sep : Char) : List Char → Option (List Char × List Char)
  | [] => none
  | c :: cs =>
    if c = sep then some ([], cs)
    else
      match splitFirst sep cs with
      | none => none
      | some lr => some (c :: lr.1, lr.2)

/-- strings.SplitN with a one-character separator: at most n substrings,
the last one holding the unsplit remainder. -/
def goSplitN (sep : Char) (cs : List Char) : Nat → List (List Char)
  | 0 => []
  | 1 => [cs]
  | Nat.succ (Nat.succ k) =>
    match splitFirst sep cs with
    | none => [cs]
    | some lr => lr.1 :: goSplitN sep lr.2 (Nat.succ k)

/-- Value of a non-empty all-digit character list. -/
def parseDigits (cs : List Char) : Option Nat :=
  if cs.isEmpty then none
  else if cs.all Char.isDigit then
    some (cs.foldl (fun a c => 10 * a + (c.toNat - Char.toNat '0')) 0)
  else none

/-- strconv.Atoi: an optional sign followed by at least one digit and
nothing else; none models the parse error. -/
def goAtoi : List Char → Option Int
  | '+' :: rest => (parseDigits rest).map (fun v => (v : Int))
  | '-' :: rest => (parseDigits rest).map (fun v => -(v : Int))
  | cs => (parseDigits cs).map (fun v => (v : Int))

/-- One line of readCoverage, lines 42-47: SplitN on tab into at most 5
tokens, Atoi of token 1 and token 2, contributing end - start; none models
the index-out-of-range panic on short lines and the Atoi panic. -/
def parseLine (line : List Char) : Option Int :=
  let toks := goSplitN '\t' line 5
  match toks[1]? with
  | none => none
  | some t1 =>
    match goAtoi t1 with
    | none => none
    | some s =>
      match toks[2]? with
      | none => none
      | some t2 =>
        match goAtoi t2 with
        | none => none
        | some e => some (e - s)

/-- Sum of the per-line contributions; the first failing line aborts the
whole read with no partial total. -/
def sumCoverage : List (List Char) → Option Int
  | [] => some 0
  | l :: ls =>
    match parseLine l with
    | none => none
    | some d =>
      match sumCoverage ls with
      | none => none
      | some rest => some (d + rest)

/-- Splits file content into newline-terminated lines, newline removed,
as the ReadString-then-TrimSuffix loop of lines 35-41 does; a final
fragment not terminated by a newline is returned with io.EOF by
ReadString and therefore discarded by the break at line 38. -/
def splitLinesAux : List Char → List Char → List (List Char)
  | _, [] => []
  | cur, c :: cs =>
    if c = '\n' then cur :: splitLinesAux [] cs
    else splitLinesAux (cur ++ [c]) cs

/-- The newline-terminated lines of the region file content. -/
def goLines (content : List Char) : List (List Char) :=
  splitLinesAux [] content

/-- readCoverage of lines 31-50 over the raw character content of the
region file. -/
def readCoverage (content : List Char) : Option Int :=
  sumCoverage (goLines content)

/-- The characters of a string literal. -/
def strChars (s : String) : List Char := s.data

/-- A reference of the alignment header: identifier, name, length. -/
structure RefInfo where
  id : Nat
  name : String
  len : Int
  deriving DecidableEq

/-- Per-reference index statistics (idx.ReferenceStats): the mapped count. -/
structure RefStats where
  mapped : Nat
  deriving DecidableEq

/-- One iteration of the header loop of lines 138-147: a reference missing
from the index emits one warning and is skipped (continue) before the
genomeBases and mapped updates; a present reference adds its length to
genomeBases and its mapped count to mapped.  The accumulator is
(genomeBases, mapped, warned reference names). -/
def refStep (idx : Nat → Option RefStats) (acc : Int × Nat × List String)
    (ref : RefInfo) : Int × Nat × List String :=
  match idx ref.id with
  | none => (acc.1, acc.2.1, acc.2.2 ++ [ref.name])
  | some st => (acc.1 + ref.len, acc.2.1 + st.mapped, acc.2.2)

/-- The header loop of lines 136-147, starting from genomeBases = 0,
mapped = 0 and no warnings. -/
def refAccount (idx : Nat → Option RefStats) (refs : List RefInfo) :
    Int × Nat × List String :=
  refs.foldl (refStep idx) (0, 0, [])

/-- A well-behaved properly-paired record: not filtered, qualifying for the
insert-size buffer. -/
def demoQual : SamRecord :=
  SamRecord.mk (flagProperPair ||| flagPaired) 10 300 110 390
    [CigarOp.mk CigarOpKind.cMatch 100]

/-- An unmapped record: dropped by the flag filter. -/
def demoFiltered : SamRecord :=
  SamRecord.mk (flagUnmapped ||| flagProperPair) 10 300 110 390
    [CigarOp.mk CigarOpKind.cMatch 100]

/-- A two-reference index knowing only reference 0. -/
def demoIdx : Nat → Option RefStats :=
  fun i => if i = 0 then some (RefStats.mk 50) else none

/-- A filtered record leaves the whole sampler state unchanged. -/
theorem sampleStep_of_filtered (n : Nat) (st : SampleState) (r : SamRecord)
    (h : isFiltered r = true) : sampleStep n st r = st := by
  simp [sampleStep, h]

/-- Characterisation of the insert-size buffer after one step. -/
theorem sampleStep_insertSizes (n : Nat) (st : SampleState) (r : SamRecord) :
    (sampleStep n st r).insertSizes =
      if isFiltered r = false ∧ insertQualifies r = true
      then st.insertSizes ++ [r.matePos - r.endPos] else st.insertSizes := by
  by_cases hf : isFiltered r = true
  · simp [sampleStep, hf]
  · rw [Bool.not_eq_true] at hf
    by_cases hq : insertQualifies r = true
    · by_cases hs : st.sizes.length < n <;> simp [sampleStep, hf, hq, hs]
    · rw [Bool.not_eq_true] at hq
      by_cases hs : st.sizes.length < n <;> simp [sampleStep, hf, hq, hs]

/-- Characterisation of the read-length buffer after one step. -/
theorem sampleStep_sizes (n : Nat) (st : SampleState) (r : SamRecord) :
    (sampleStep n st r).sizes =
      if isFiltered r = false ∧ st.sizes.length < n
      then st.sizes ++ [(queryLen r.cigar : Int)] else st.sizes := by
  by_cases hf : isFiltered r = true
  · simp [sampleStep, hf]
  · rw [Bool.not_eq_true] at hf
    by_cases hq : insertQualifies r = true
    · by_cases hs : st.sizes.length < n <;> simp [sampleStep, hf, hq, hs]
    · rw [Bool.not_eq_true] at hq
      by_cases hs : st.sizes.length < n <;> simp [sampleStep, hf, hq, hs]

/-- Characterisation of the template-length buffer after one step. -/
theorem sampleStep_templateLengths (n : Nat) (st : SampleState) (r : SamRecord) :
    (sampleStep n st r).templateLengths =
      if isFiltered r = false ∧ insertQualifies r = true
      then st.templateLengths ++ [r.tempLen] else st.templateLengths := by
  by_cases hf : isFiltered r = true
  · simp [sampleStep, hf]
  · rw [Bool.not_eq_true] at hf
    by_cases hq : insertQualifies r = true
    · by_cases hs : st.sizes.length < n <;> simp [sampleStep, hf, hq, hs]
    · rw [Bool.not_eq_true] at hq
      by_cases hs : st.sizes.length < n <;> simp [sampleStep, hf, hq, hs]

/-- One step grows the insert-size buffer by at most one entry. -/
theorem sampleStep_insert_len_le (n : Nat) (st : SampleState) (r : SamRecord) :
    (sampleStep n st r).insertSizes.length ≤ st.insertSizes.length + 1 := by
  rw [sampleStep_insertSizes]
  split <;> simp

/-- One step keeps the read-length buffer within the cap. -/
theorem sampleStep_sizes_le_n (n : Nat) (st : SampleState) (r : SamRecord)
    (h : st.sizes.length ≤ n) : (sampleStep n st r).sizes.length ≤ n := by
  rw [sampleStep_sizes]
  split
  · next hc => simp; omega
  · exact h

/-- The loop keeps the insert-size buffer within the cap. -/
theorem sampleLoop_insert_le_n (n : Nat) (recs : List SamRecord) :
    ∀ st : SampleState, st.insertSizes.length ≤ n →
      (sampleLoop n st recs).insertSizes.length ≤ n := by
  induction recs with
  | nil => intro st h; simpa [sampleLoop] using h
  | cons r rs ih =>
    intro st h
    simp only [sampleLoop]
    by_cases hg : st.insertSizes.length < n
    · rw [if_pos hg]
      apply ih
      have := sampleStep_insert_len_le n st r
      omega
    · rw [if_neg hg]; exact h

/-- The loop keeps the read-length buffer within the cap. -/
theorem sampleLoop_sizes_le_n (n : Nat) (recs : List SamRecord) :
    ∀ st : SampleState, st.sizes.length ≤ n →
      (sampleLoop n st recs).sizes.length ≤ n := by
  induction recs with
  | nil => intro st h; simpa [sampleLoop] using h
  | cons r rs ih =>
    intro st h
    simp only [sampleLoop]
    by_cases hg : st.insertSizes.length < n
    · rw [if_pos hg]
      exact ih _ (sampleStep_sizes_le_n n st r h)
    · rw [if_neg hg]; exact h

/-- The insert-size buffer grows by at most the number of qualifying
unfiltered records in the stream. -/
theorem sampleLoop_insert_le_count (n : Nat) (recs : List SamRecord) :
    ∀ st : SampleState, (sampleLoop n st recs).insertSizes.length ≤
      st.insertSizes.length +
        recs.countP (fun r => !isFiltered r && insertQualifies r) := by
  induction recs with
  | nil => intro st; simp [sampleLoop]
  | cons r rs ih =>
    intro st
    simp only [sampleLoop]
    rw [List.countP_cons]
    by_cases hg : st.insertSizes.length < n
    · rw [if_pos hg]
      have h1 := ih (sampleStep n st r)
      have h2 : (sampleStep n st r).insertSizes.length ≤
          st.insertSizes.length +
            (if (!isFiltered r && insertQualifies r) = true then 1 else 0) := by
        rw [sampleStep_insertSizes]
        split
        · next hc =>
          have : (!isFiltered r && insertQualifies r) = true := by
            simp [hc.1, hc.2]
          simp [this]
        · split <;> simp
      omega
    · rw [if_neg hg]
      omega

/-- The read-length buffer grows by at most the number of unfiltered
records in the stream. -/
theorem sampleLoop_sizes_le_count (n : Nat) (recs : List SamRecord) :
    ∀ st : SampleState, (sampleLoop n st recs).sizes.length ≤
      st.sizes.length + recs.countP (fun r => !isFiltered r) := by
  induction recs with
  | nil => intro st; simp [sampleLoop]
  | cons r rs ih =>
    intro st
    simp only [sampleLoop]
    rw [List.countP_cons]
    by_cases hg : st.insertSizes.length < n
    · rw [if_pos hg]
      have h1 := ih (sampleStep n st r)
      have h2 : (sampleStep n st r).sizes.length ≤
          st.sizes.length + (if (!isFiltered r) = true then 1 else 0) := by
        rw [sampleStep_sizes]
        split
        · next hc => simp [hc.1]
        · split <;> simp
      omega
    · rw [if_neg hg]
      omega

/-- When the loop ends with the insert-size buffer still under the cap,
the whole stream was consumed. -/
theorem sampleLoop_exhaust (n : Nat) (recs : List SamRecord) :
    ∀ st : SampleState, (sampleLoop n st recs).insertSizes.length < n →
      sampleLoop n st recs = recs.foldl (sampleStep n) st := by
  induction recs with
  | nil => intro st h; simp [sampleLoop]
  | cons r rs ih =>
    intro st h
    simp only [sampleLoop] at h ⊢
    by_cases hg : st.insertSizes.length < n
    · rw [if_pos hg] at h ⊢
      rw [List.foldl_cons]
      exact ih _ h
    · rw [if_neg hg] at h
      omega

/-- One step under the loop guard preserves the dominance of the
read-length buffer over the insert-size buffer, and the cap on the
read-length buffer. -/
theorem sampleStep_inv (n : Nat) (st : SampleState) (r : SamRecord)
    (h1 : st.insertSizes.length ≤ st.sizes.length) (h2 : st.sizes.length ≤ n)
    (hg : st.insertSizes.length < n) :
    (sampleStep n st r).insertSizes.length ≤ (sampleStep n st r).sizes.length ∧
    (sampleStep n st r).sizes.length ≤ n := by
  rw [sampleStep_insertSizes, sampleStep_sizes]
  by_cases hf : isFiltered r = true
  · simp [hf]; exact ⟨h1, h2⟩
  · rw [Bool.not_eq_true] at hf
    by_cases hq : insertQualifies r = true
    · by_cases hs : st.sizes.length < n
      · rw [if_pos ⟨hf, hq⟩, if_pos ⟨hf, hs⟩]
        simp
        omega
      · rw [if_pos ⟨hf, hq⟩, if_neg (fun hc => hs hc.2)]
        simp
        omega
    · rw [Bool.not_eq_true] at hq
      rw [if_neg (fun hc => by rw [hq] at hc; exact Bool.false_ne_true hc.2)]
      by_cases hs : st.sizes.length < n
      · rw [if_pos ⟨hf, hs⟩]
        simp
        omega
      · rw [if_neg (fun hc => hs hc.2)]
        exact ⟨h1, h2⟩

/-- The loop preserves the dominance of the read-length buffer over the
insert-size buffer, and the cap on the read-length buffer. -/
theorem sampleLoop_inv (n : Nat) (recs : List SamRecord) :
    ∀ st : SampleState, st.insertSizes.length ≤ st.sizes.length →
      st.sizes.length ≤ n →
      (sampleLoop n st recs).insertSizes.length ≤
        (sampleLoop n st recs).sizes.length ∧
      (sampleLoop n st recs).sizes.length ≤ n := by
  induction recs with
  | nil => intro st h1 h2; simpa [sampleLoop] using ⟨h1, h2⟩
  | cons r rs ih =>
    intro st h1 h2
    simp only [sampleLoop]
    by_cases hg : st.insertSizes.length < n
    · rw [if_pos hg]
      have := sampleStep_inv n st r h1 h2 hg
      exact ih _ this.1 this.2
    · rw [if_neg hg]
      exact ⟨h1, h2⟩

/-- A character list without a newline produces no complete line. -/
theorem splitLinesAux_no_newline (frag : List Char) (h : '\n' ∉ frag) :
    ∀ cur, splitLinesAux cur frag = [] := by
  induction frag with
  | nil => intro cur; simp [splitLinesAux]
  | cons c cs ih =>
    intro cur
    have hc : ¬ c = '\n' := by
      intro he
      exact h (by rw [he]; exact List.mem_cons_self _ _)
    rw [splitLinesAux, if_neg (by simpa using hc)]
    exact ih (fun hm => h (List.mem_cons_of_mem c hm)) _

/-- Appending newline-free trailing content does not change the complete
lines. -/
theorem splitLinesAux_append_no_newline (s frag : List Char)
    (h : '\n' ∉ frag) :
    ∀ cur, splitLinesAux cur (s ++ frag) = splitLinesAux cur s := by
  induction s with
  | nil =>
    intro cur
    rw [List.nil_append, splitLinesAux_no_newline frag h cur]
    simp [splitLinesAux]
  | cons c cs ih =>
    intro cur
    by_cases hc : c = '\n' <;>
      simp [splitLinesAux, hc, ih]

/-- A sorted permutation of the buffer is the insertion sort of the buffer. -/
theorem sorted_perm_eq_sortedSizes (xs ys : List Int) (hperm : ys.Perm xs)
    (hsort : ys.Sorted (fun a b => a ≤ b)) : ys = sortedSizes xs :=
  List.eq_of_perm_of_sorted (hperm.trans (List.perm_insertionSort _ xs).symm)
    hsort (List.sorted_insertionSort _ xs)

/-- A line whose fields 1 and 2 parse contributes end - start. -/
theorem parseLine_eq (l : List Char) (s e : Int)
    (h1 : (goSplitN '\t' l 5)[1]?.bind goAtoi = some s)
    (h2 : (goSplitN '\t' l 5)[2]?.bind goAtoi = some e) :
    parseLine l = some (e - s) := by
  obtain ⟨t1, ht1, ha1⟩ := Option.bind_eq_some.mp h1
  obtain ⟨t2, ht2, ha2⟩ := Option.bind_eq_some.mp h2
  simp [parseLine, ht1, ht2, ha1, ha2]

/-- Over lines whose fields all parse, sumCoverage is the total of the
per-line end - start contributions. -/
theorem sumCoverage_forall (lines : List (List Char)) (se : List (Int × Int))
    (h : List.Forall₂ (fun l p =>
      (goSplitN '\t' l 5)[1]?.bind goAtoi = some (Prod.fst p) ∧
      (goSplitN '\t' l 5)[2]?.bind goAtoi = some (Prod.snd p)) lines se) :
    sumCoverage lines = some ((se.map (fun p => p.2 - p.1)).sum) := by
  induction h with
  | nil => simp [sumCoverage]
  | @cons a p l1 l2 hp hrest ih =>
    rw [sumCoverage, parseLine_eq a p.1 p.2 hp.1 hp.2, ih]
    simp

/-- A failing line anywhere makes the whole read fail with no partial
total. -/
theorem sumCoverage_of_mem_none (lines : List (List Char)) (l : List Char)
    (hmem : l ∈ lines) (hnone : parseLine l = none) : sumCoverage lines = none := by
  induction lines with
  | nil => cases hmem
  | cons a ls ih =>
    rcases List.mem_cons.mp hmem with rfl | hm
    · simp [sumCoverage, hnone]
    · rw [sumCoverage]
      cases hpa : parseLine a with
      | none => rfl
      | some d => rw [ih hm]

/-- The pairing condition of line 96 as a proposition on the record. -/
theorem insertQualifies_iff (r : SamRecord) :
    insertQualifies r = true ↔
      (r.pos < r.matePos ∧ r.flags &&& flagProperPair = flagProperPair ∧
        ∃ l, r.cigar = [CigarOp.mk CigarOpKind.cMatch l]) := by
  simp only [insertQualifies, Bool.and_eq_true, decide_eq_true_eq, beq_iff_eq]
  constructor
  · rintro ⟨⟨hp, hf⟩, hm⟩
    refine ⟨hp, hf, ?_⟩
    cases hc : r.cigar with
    | nil => rw [hc] at hm; simp [isSingleMatch] at hm
    | cons op rest =>
      cases rest with
      | nil =>
        cases op with
        | mk k len =>
          rw [hc] at hm
          simp only [isSingleMatch, beq_iff_eq] at hm
          exact ⟨len, by rw [hm]⟩
      | cons b bs => rw [hc] at hm; simp [isSingleMatch] at hm
  · rintro ⟨hp, hf, ⟨l, hc⟩⟩
    exact ⟨⟨hp, hf⟩, by simp [isSingleMatch, hc]⟩

/-- C1 (counterexample): with one header reference of length 100 absent
from the index, genomeBases stays 0 after the header loop; the claim that
the missing reference's header length is still added to totalBases would
require 100. -/
theorem C1_counterexample :
    (refAccount (fun _ => none) [RefInfo.mk 0 ("chr1") 100]).1 = 0 ∧
    (refAccount (fun _ => none) [RefInfo.mk 0 ("chr1") 100]).1 ≠ 100 := by
  constructor
  · rfl
  · decide

/-- C1 (amended): a reference present in the header but absent from the
index is not fatal: the loop returns normally, exactly one warning naming
the reference is appended, the reference contributes 0 to the mapped
total, and its header length is NOT added to genomeBases (the continue at
line 142 runs before the genomeBases update at line 144). -/
theorem C1_missing_ref_skips (idx : Nat → Option RefStats) (refs : List RefInfo)
    (ref : RefInfo) (h : idx ref.id = none) :
    refAccount idx (refs ++ [ref]) =
      ((refAccount idx refs).1, (refAccount idx refs).2.1,
        (refAccount idx refs).2.2 ++ [ref.name]) := by
  unfold refAccount
  rw [List.foldl_append]
  simp [refStep, h]

/-- C1 witness: reference 1 is missing from demoIdx; the accounting keeps
reference 0 only and warns once about reference 1. -/
theorem C1_witness :
    refAccount demoIdx [RefInfo.mk 0 ("chr1") 100, RefInfo.mk 1 ("chr2") 200] =
      (100, 50, [("chr2")]) := by
  have h := C1_missing_ref_skips demoIdx [RefInfo.mk 0 ("chr1") 100]
    (RefInfo.mk 1 ("chr2") 200) (by decide)
  exact h.trans (by decide)

/-- C2: when no record survives filtering the read-length buffer is empty,
and the statistics computation of lines 103-111 hits the out-of-range
access sizes[(len(sizes)-1)/2] = sizes[0] on the empty buffer: the code
panics (modelled as none) instead of reporting an explicit
insufficient-samples condition. -/
theorem C2_empty_buffer_panics :
    (bamInsertSizes 100000 []).sizes = [] ∧
    computeSizes (bamInsertSizes 100000 []) = none ∧
    (bamInsertSizes 100000 (List.replicate 5 demoFiltered)).sizes = [] ∧
    computeSizes (bamInsertSizes 100000 (List.replicate 5 demoFiltered)) = none := by
  refine ⟨rfl, by decide, by decide, by decide⟩

/-- C3: the sampling pass stops exactly at the cap or at exhaustion: the
insert-size buffer ends with at most min(N, qualifying-pair count)
entries, the read-length buffer with at most min(N, unfiltered count)
entries, and when the insert-size buffer ends below N the pass consumed
the whole stream. -/
theorem C3_sampling_bounds (n : Nat) (recs : List SamRecord) :
    (bamInsertSizes n recs).insertSizes.length ≤
      min n (recs.countP (fun r => !isFiltered r && insertQualifies r)) ∧
    (bamInsertSizes n recs).sizes.length ≤
      min n (recs.countP (fun r => !isFiltered r)) ∧
    ((bamInsertSizes n recs).insertSizes.length < n →
      bamInsertSizes n recs = recs.foldl (sampleStep n) initState) := by
  refine ⟨le_min ?_ ?_, le_min ?_ ?_, ?_⟩
  · exact sampleLoop_insert_le_n n recs initState (by simp [initState])
  · simpa [initState] using sampleLoop_insert_le_count n recs initState
  · exact sampleLoop_sizes_le_n n recs initState (by simp [initState])
  · simpa [initState] using sampleLoop_sizes_le_count n recs initState
  · exact sampleLoop_exhaust n recs initState

/-- C3 witness: one qualifying record under cap 2 leaves the insert-size
buffer below the cap, so the pass consumed the whole stream. -/
theorem C3_witness :
    bamInsertSizes 2 [demoQual] = [demoQual].foldl (sampleStep 2) initState :=
  (C3_sampling_bounds 2 [demoQual]).2.2 (by decide)

/-- C4: a record whose flags intersect {secondary, supplementary, unmapped,
qc-fail} leaves all three sample buffers unchanged, whatever its other
flags, position, pairing or cigar. -/
theorem C4_filtered_record_no_contribution (n : Nat) (st : SampleState)
    (r : SamRecord) (h : r.flags &&& filterMask ≠ 0) : sampleStep n st r = st :=
  sampleStep_of_filtered n st r (by simpa [isFiltered] using h)

/-- C4 witness: the unmapped demo record changes nothing. -/
theorem C4_witness : sampleStep 1 initState demoFiltered = initState :=
  C4_filtered_record_no_contribution 1 initState demoFiltered (by decide)

/-- C5: for an unfiltered record, the insert-size and template-length
buffers receive (matePos - alignment end) and the raw template length
exactly when pos < matePos, the proper-pair flag is set, and the cigar is
a single block of kind match. -/
theorem C5_insert_append_iff (n : Nat) (st : SampleState) (r : SamRecord)
    (h : isFiltered r = false) :
    ((sampleStep n st r).insertSizes = st.insertSizes ++ [r.matePos - r.endPos] ∧
     (sampleStep n st r).templateLengths = st.templateLengths ++ [r.tempLen]) ↔
      (r.pos < r.matePos ∧ r.flags &&& flagProperPair = flagProperPair ∧
        ∃ l, r.cigar = [CigarOp.mk CigarOpKind.cMatch l]) := by
  rw [← insertQualifies_iff]
  constructor
  · intro hap
    by_cases hq : insertQualifies r = true
    · exact hq
    · rw [Bool.not_eq_true] at hq
      exfalso
      have hch := sampleStep_insertSizes n st r
      rw [if_neg (fun hc => by rw [hq] at hc; exact Bool.false_ne_true hc.2)] at hch
      have heq : st.insertSizes = st.insertSizes ++ [r.matePos - r.endPos] :=
        hch.symm.trans hap.1
      have hlen := congrArg List.length heq
      simp at hlen
  · intro hq
    rw [sampleStep_insertSizes, sampleStep_templateLengths,
      if_pos ⟨h, hq⟩, if_pos ⟨h, hq⟩]
    exact ⟨rfl, rfl⟩

/-- C5 witness: the qualifying demo record appends 300 - 110 = 190 and the
template length 390. -/
theorem C5_witness :
    (sampleStep 1 initState demoQual).insertSizes = [(190 : Int)] ∧
    (sampleStep 1 initState demoQual).templateLengths = [(390 : Int)] := by
  have h := (C5_insert_append_iff 1 initState demoQual (by decide)).mpr
    ⟨by decide, by decide, ⟨100, rfl⟩⟩
  exact ⟨h.1.trans (by decide), h.2.trans (by decide)⟩

/-- C6: for a non-empty read-length buffer the reported median is defined
and equals the element at index (len - 1) / 2 of the buffer sorted
ascending, minus one. -/
theorem C6_median_of_sorted (xs ys : List Int) (hperm : ys.Perm xs)
    (hsort : ys.Sorted (fun a b => a ≤ b)) (hne : xs ≠ []) :
    ∃ v, readLengthMedianOf xs = some v ∧
      ys[(xs.length - 1) / 2]? = some (v + 1) := by
  have hys : ys = sortedSizes xs := sorted_perm_eq_sortedSizes xs ys hperm hsort
  have hlen : (sortedSizes xs).length = xs.length :=
    (List.perm_insertionSort _ xs).length_eq
  have hpos : 0 < xs.length := List.length_pos.mpr hne
  have hidx : (xs.length - 1) / 2 < (sortedSizes xs).length := by
    rw [hlen]
    exact Nat.lt_of_le_of_lt (Nat.div_le_self _ 2) (by omega)
  have hga : (sortedSizes xs)[(xs.length - 1) / 2]? =
      some ((sortedSizes xs)[(xs.length - 1) / 2]) :=
    List.getElem?_eq_getElem hidx
  refine ⟨(sortedSizes xs)[(xs.length - 1) / 2] - 1, ?_, ?_⟩
  · simp [readLengthMedianOf, medianIndexValue, hga]
  · rw [hys, hga]
    congr 1
    omega

/-- C6 witness: median([2,4,6]) = 4 - 1 = 3. -/
theorem C6_witness : readLengthMedianOf [2, 4, 6] = some 3 := by
  obtain ⟨v, hv, hg⟩ := C6_median_of_sorted [2, 4, 6] [2, 4, 6]
    (List.Perm.refl _) (by decide) (by decide)
  have e : (([2, 4, 6] : List Int))[((([2, 4, 6] : List Int)).length - 1) / 2]? =
      some 4 := by decide
  rw [e] at hg
  injection hg with hg4
  have hv3 : v = 3 := by omega
  rw [hv3] at hv
  exact hv

/-- C7: the coverage of line 154 is mapped * readLengthMedian / totalBases,
and at mappedReadTotal = 1000, readLengthMedian = 100, totalBases = 10000
it equals 10. -/
theorem C7_coverage_formula :
    (∀ m med tb : ℚ, coverage m med tb = m * med / tb) ∧
    coverage 1000 100 10000 = 10 := by
  constructor
  · intro m med tb
    rfl
  · norm_num [coverage]

/-- C8: over the newline-terminated lines of a well-formed interval file
the reader returns the sum of (end - start); a line with a missing or
non-integer field makes the whole read fail with no partial total; the two
example lines yield 150. -/
theorem C8_region_reader :
    (∀ (lines : List (List Char)) (se : List (Int × Int)),
      List.Forall₂ (fun l p =>
        (goSplitN '\t' l 5)[1]?.bind goAtoi = some (Prod.fst p) ∧
        (goSplitN '\t' l 5)[2]?.bind goAtoi = some (Prod.snd p)) lines se →
      sumCoverage lines = some ((se.map (fun p => p.2 - p.1)).sum)) ∧
    (∀ (lines : List (List Char)) (l : List Char),
      l ∈ lines → parseLine l = none → sumCoverage lines = none) ∧
    readCoverage (strChars ("chr1\t0\t100\t.\t.\nchr1\t200\t250\t.\t.\n")) =
      some 150 := by
  refine ⟨sumCoverage_forall, sumCoverage_of_mem_none, by decide⟩

/-- C8 witness: the two example lines sum to 150, and a one-field line
fails the whole read. -/
theorem C8_witness :
    sumCoverage [strChars ("chr1\t0\t100\t.\t."), strChars ("chr1\t200\t250\t.\t.")] =
      some 150 ∧
    sumCoverage [strChars ("chr1")] = none := by
  constructor
  · have h := (C8_region_reader).1
      [strChars ("chr1\t0\t100\t.\t."), strChars ("chr1\t200\t250\t.\t.")]
      [((0 : Int), (100 : Int)), (200, 250)]
      (List.Forall₂.cons (by exact ⟨by decide, by decide⟩)
        (List.Forall₂.cons (by exact ⟨by decide, by decide⟩) List.Forall₂.nil))
    exact h.trans (by decide)
  · exact (C8_region_reader).2.1 [strChars ("chr1")] (strChars ("chr1"))
      (List.mem_singleton.mpr rfl) (by decide)

/-- C9: the read-length buffer is always at least as long as the
insert-size buffer at the end of the pass, and when the pass ends with the
insert-size buffer at N the read-length buffer holds exactly N entries and
is non-empty. -/
theorem C9_read_buffer_dominates (n : Nat) (recs : List SamRecord)
    (hn : 0 < n) :
    (bamInsertSizes n recs).insertSizes.length ≤
      (bamInsertSizes n recs).sizes.length ∧
    ((bamInsertSizes n recs).insertSizes.length = n →
      (bamInsertSizes n recs).sizes.length = n ∧
        (bamInsertSizes n recs).sizes ≠ []) := by
  simp only [bamInsertSizes]
  have h := sampleLoop_inv n recs initState (by simp [initState]) (by simp [initState])
  refine ⟨h.1, fun he => ?_⟩
  have hs : (sampleLoop n initState recs).sizes.length = n := by
    have h1 := h.1
    have h2 := h.2
    omega
  refine ⟨hs, fun hnil => ?_⟩
  rw [hnil] at hs
  simp at hs
  omega

/-- C9 witness: with cap 1 and one qualifying record the insert buffer
reaches the cap and the read-length buffer holds exactly one entry. -/
theorem C9_witness :
    (bamInsertSizes 1 [demoQual]).sizes.length = 1 ∧
    (bamInsertSizes 1 [demoQual]).sizes ≠ [] :=
  (C9_read_buffer_dominates 1 [demoQual] (by decide)).2 (by decide)

/-- C10: a final line not terminated by a newline is ignored entirely by
readCoverage: its interval is not added and no error is raised for it even
if it is malformed. -/
theorem C10_unterminated_final_line_ignored (content frag : List Char)
    (h : '\n' ∉ frag) :
    readCoverage (content ++ frag) = readCoverage content := by
  unfold readCoverage goLines
  rw [splitLinesAux_append_no_newline content frag h]

/-- C10 witness: a malformed unterminated trailing fragment changes
nothing: the result is the 100 bases of the first line. -/
theorem C10_witness :
    readCoverage (strChars ("chr1\t0\t100\n") ++ strChars ("chrbad\tx")) =
      some 100 :=
  (C10_unterminated_final_line_ignored (strChars ("chr1\t0\t100\n"))
    (strChars ("chrbad\tx")) (by decide)).trans (by decide)

end Covmed
